import Mathlib

/-!
Verification of the reconciliation core of `external-dns-kubevirt`
(`internal/controller/vmi_controller.go`), a controller that derives
External-DNS `DNSEndpoint` objects from KubeVirt `VirtualMachineInstance`
network status.

The Go source is shallowly embedded: pure helpers become Lean functions,
the Kubernetes API is modeled as explicit state (the `DNSEndpoint` object
stored at the VMI's namespace/name key), and a reconciliation pass is a
function from that state to the list of write operations it issues.

Go standard-library routines used by the controller (`net.ParseIP`,
`strings.TrimSpace`, `strings.Split`, `strconv.ParseInt`) are embedded
following the Go standard library's own algorithms (package `net/netip`
for IP parsing, `unicode.IsSpace` for trimming), since the controller's
behaviour depends on their exact acceptance conditions.
-/

/-- Character predicate of Go's `unicode.IsSpace` (the White_Space property),
used by `strings.TrimSpace`. -/
def goIsSpace (c : Char) : Bool :=
  c == ' ' || c == '\t' || c == '\n' || c == '\r' || c.toNat == 11 || c.toNat == 12
    || c.toNat == 0x85 || c.toNat == 0xA0 || c.toNat == 0x1680
    || (0x2000 ≤ c.toNat && c.toNat ≤ 0x200A)
    || c.toNat == 0x2028 || c.toNat == 0x2029 || c.toNat == 0x202F
    || c.toNat == 0x205F || c.toNat == 0x3000

/-- Go's `strings.TrimSpace`: remove leading and trailing Unicode whitespace. -/
def goTrimSpace (s : String) : String :=
  String.mk (((s.toList.dropWhile goIsSpace).reverse.dropWhile goIsSpace).reverse)

/-- Helper for `splitComma`: accumulates the current field (reversed). -/
def splitCommaAux : List Char → List Char → List String
  | [], cur => [String.mk cur.reverse]
  | c :: cs, cur =>
    if c == ',' then String.mk cur.reverse :: splitCommaAux cs []
    else splitCommaAux cs (c :: cur)

/-- Go's `strings.Split(s, ",")`: split on every comma; `""` yields `[""]`. -/
def splitComma (s : String) : List String :=
  splitCommaAux s.toList []

/-! ## Go `net.ParseIP`

Model of Go's `net.ParseIP` (which, in current Go, parses via
`netip.ParseAddr` and rejects any zone suffix).  An address is represented
as its 16-byte form (`As16`): IPv4 addresses are stored v4-in-v6 mapped,
exactly as `net.ParseIP` returns them. -/

/-- Value of a hexadecimal digit character, if any. -/
def hexDigitVal (c : Char) : Option Nat :=
  if '0' ≤ c ∧ c ≤ '9' then some (c.toNat - '0'.toNat)
  else if 'a' ≤ c ∧ c ≤ 'f' then some (c.toNat - 'a'.toNat + 10)
  else if 'A' ≤ c ∧ c ≤ 'F' then some (c.toNat - 'A'.toNat + 10)
  else none

/-- Greedy hexadecimal-chunk scan of `netip.parseIPv6`: returns the
accumulated value, the number of digits consumed, and the rest; `none`
when the accumulated value exceeds `0xFFFF` (overflow is an immediate
parse failure in Go). -/
def takeHex : List Char → Nat → Nat → Option (Nat × Nat × List Char)
  | [], acc, cnt => some (acc, cnt, [])
  | c :: cs, acc, cnt =>
    match hexDigitVal c with
    | none => some (acc, cnt, c :: cs)
    | some d =>
      let acc2 := acc * 16 + d
      if 0xFFFF < acc2 then none
      else takeHex cs acc2 (cnt + 1)

/-- Go's `netip.parseIPv4Fields`: strict dotted-quad — exactly four fields,
each a decimal octet `0..255` with no leading zeros; the state is the
current field value, its digit count, and the completed fields. -/
def parseIPv4Go : List Char → Nat → Nat → List Nat → Option (List Nat)
  | [], val, digLen, fields =>
    if digLen == 0 then none
    else if fields.length == 3 then some (fields ++ [val])
    else none
  | c :: cs, val, digLen, fields =>
    if c.isDigit then
      if digLen == 1 && val == 0 then none
      else
        let v2 := val * 10 + (c.toNat - 48)
        if 255 < v2 then none
        else parseIPv4Go cs v2 (digLen + 1) fields
    else if c == '.' then
      if digLen == 0 then none
      else if fields.length == 3 then none
      else parseIPv4Go cs 0 0 (fields ++ [val])
    else none

/-- Post-loop step of `netip.parseIPv6`: any unconsumed input is an error;
a short address needs an ellipsis, which expands to the missing zero bytes;
a full 16-byte address must not also carry an ellipsis. -/
def v6finish (s : List Char) (bytes : List Nat) (ellipsis : Option Nat) :
    Option (List Nat) :=
  if s.isEmpty = false then none
  else if bytes.length < 16 then
    match ellipsis with
    | none => none
    | some e => some (bytes.take e ++ List.replicate (16 - bytes.length) 0 ++ bytes.drop e)
  else
    match ellipsis with
    | some _ => none
    | none => some bytes

/-- Main loop of `netip.parseIPv6`: repeatedly read a hex group; a group
followed by `.` restarts as an embedded IPv4 tail; `::` records the
ellipsis position (at most once); the loop stops once 16 bytes are
collected or the input ends.  The fuel parameter strictly exceeds the
possible number of iterations (each one adds at least two bytes, and the
loop only runs while fewer than 16 bytes are collected). -/
def v6loop : Nat → List Char → List Nat → Option Nat → Option (List Nat)
  | 0, _, _, _ => none
  | fuel + 1, s, bytes, ellipsis =>
    if 16 ≤ bytes.length then v6finish s bytes ellipsis
    else
      match takeHex s 0 0 with
      | none => none
      | some (acc, cnt, rest) =>
        if cnt == 0 then none
        else
          match rest with
          | '.' :: _ =>
            if ellipsis.isNone && bytes.length != 12 then none
            else if 16 < bytes.length + 4 then none
            else
              match parseIPv4Go s 0 0 [] with
              | none => none
              | some f4 => v6finish [] (bytes ++ f4) ellipsis
          | [] => v6finish [] (bytes ++ [acc / 256, acc % 256]) ellipsis
          | ':' :: [] => none
          | ':' :: ':' :: rest3 =>
            if ellipsis.isSome then none
            else
              match rest3 with
              | [] => v6finish [] (bytes ++ [acc / 256, acc % 256]) (some (bytes.length + 2))
              | _ => v6loop fuel rest3 (bytes ++ [acc / 256, acc % 256]) (some (bytes.length + 2))
          | ':' :: c2 :: rest3 => v6loop fuel (c2 :: rest3) (bytes ++ [acc / 256, acc % 256]) ellipsis
          | _ => none

/-- Go's `netip.parseIPv6` as used by `net.ParseIP`: a `%zone` suffix makes
`net.ParseIP` return `nil` (an empty zone is a parse error and a non-empty
zone is rejected by `net.ParseIP` itself), so any `%` yields `none` here. -/
def parseIPv6Go (cs : List Char) : Option (List Nat) :=
  if cs.contains '%' then none
  else
    match cs with
    | ':' :: ':' :: rest =>
      match rest with
      | [] => some (List.replicate 16 0)
      | _ => v6loop 16 rest [] (some 0)
    | _ => v6loop 16 cs [] none

/-- The 12-byte v4-in-v6 mapping lead (`0..0 ff ff`). -/
def v4InV6 : List Nat := [0, 0, 0, 0, 0, 0, 0, 0, 0, 0, 0xFF, 0xFF]

/-- Dispatch scan of `netip.ParseAddr`: the first of `.`, `:`, `%` decides
the parse family. -/
def findSpecial : List Char → Option Char
  | [] => none
  | c :: cs => if c == '.' || c == ':' || c == '%' then some c else findSpecial cs

/-- Go's `net.ParseIP`, returning the 16-byte `As16` form of the address
(IPv4 results are v4-in-v6 mapped, as in Go). -/
def goParseIP (s : String) : Option (List Nat) :=
  match findSpecial s.toList with
  | some c =>
    if c == '.' then (parseIPv4Go s.toList 0 0 []).map (fun f4 => v4InV6 ++ f4)
    else if c == ':' then parseIPv6Go s.toList
    else none
  | none => none

/-- Go's `IP.To4`: a 4-byte address, or a 16-byte address with the
v4-in-v6 lead, has a 4-byte form. -/
def ipTo4 (ip : List Nat) : Option (List Nat) :=
  if ip.length == 4 then some ip
  else if ip.length == 16 && ip.take 12 == v4InV6 then some (ip.drop 12)
  else none

/-- Go's `IP.To16`. -/
def ipTo16 (ip : List Nat) : Option (List Nat) :=
  if ip.length == 4 then some (v4InV6 ++ ip)
  else if ip.length == 16 then some ip
  else none

/-- Go's `IP.IsLinkLocalUnicast`: `169.254.0.0/16` for 4-byte forms,
`fe80::/10` for 16-byte forms. -/
def ipIsLinkLocalUnicast (ip : List Nat) : Bool :=
  match ipTo4 ip with
  | some ip4 => ip4.get? 0 == some 169 && ip4.get? 1 == some 254
  | none =>
    ip.length == 16 && ip.get? 0 == some 0xfe
      && (((ip.get? 1).getD 0) &&& 0xc0) == 0x80

/-! ## Controller data model (`vmi_controller.go`) -/

/-- Value of the `multus-status` infoSource constant. -/
def multusInfoSource : String := "multus-status"

/-- Value of the `guest-agent` infoSource constant. -/
def guestAgentInfoSource : String := "guest-agent"

/-- Default record TTL in seconds. -/
def defaultTTL : Int := 300

/-- One entry of `vmi.Status.Interfaces`: the comma-separated provenance
tag `InfoSource`, the single primary address `IP`, and the full address
list `IPs`. -/
structure IfaceStatus where
  infoSource : String
  ip : String
  ips : List String
deriving DecidableEq

/-- The slice of a `VirtualMachineInstance` the controller reads: identity,
the two External-DNS annotations (absent = `none`, matching a missing map
key), and the reported interfaces. -/
structure VMI where
  ns : String
  name : String
  hostnameAnn : Option String
  ttlAnn : Option String
  interfaces : List IfaceStatus
deriving DecidableEq

/-- `containsInfoSource`: does the comma-separated `infoSource` field
contain `source` as one of its trimmed tokens? -/
def containsInfoSource (infoSource source : String) : Bool :=
  (splitComma infoSource).any (fun part => goTrimSpace part == source)

/-- Per-address step of `extractGuestAgentIPs`: trim, drop empties and
unparsable strings, append 4-byte forms to the IPv4 list, and append
non-link-local 16-byte forms to the IPv6 list. -/
def gaAddrStep (acc : List String × List String) (addr : String) :
    List String × List String :=
  let a := goTrimSpace addr
  if a == "" then acc
  else
    match goParseIP a with
    | none => acc
    | some ip =>
      if (ipTo4 ip).isSome then (acc.1 ++ [a], acc.2)
      else if (ipTo16 ip).isSome && !(ipIsLinkLocalUnicast ip) then (acc.1, acc.2 ++ [a])
      else acc

/-- Per-interface step of `extractGuestAgentIPs`: skip interfaces whose
`InfoSource` lacks the guest-agent tag, otherwise fold over `iface.IPs`. -/
def gaIfaceStep (acc : List String × List String) (iface : IfaceStatus) :
    List String × List String :=
  if !(containsInfoSource iface.infoSource guestAgentInfoSource) then acc
  else iface.ips.foldl gaAddrStep acc

/-- `extractGuestAgentIPs`: IPv4/IPv6 addresses from the full `IPs` lists
of guest-agent interfaces, skipping link-local IPv6. -/
def extractGuestAgentIPs (vmi : VMI) : List String × List String :=
  vmi.interfaces.foldl gaIfaceStep ([], [])

/-- Per-interface step of `extractMultusIPs`: read only the single
`iface.IP` field of multus-status interfaces; no link-local filtering. -/
def multusIfaceStep (acc : List String × List String) (iface : IfaceStatus) :
    List String × List String :=
  if !(containsInfoSource iface.infoSource multusInfoSource) then acc
  else
    let a := goTrimSpace iface.ip
    if a == "" then acc
    else
      match goParseIP a with
      | none => acc
      | some ip =>
        if (ipTo4 ip).isSome then (acc.1 ++ [a], acc.2)
        else if (ipTo16 ip).isSome then (acc.1, acc.2 ++ [a])
        else acc

/-- `extractMultusIPs`. -/
def extractMultusIPs (vmi : VMI) : List String × List String :=
  vmi.interfaces.foldl multusIfaceStep ([], [])

/-- `extractBestIPs`: guest-agent addresses win when any exist, otherwise
multus-status addresses, otherwise nothing; the third component is the
winning source tag. -/
def extractBestIPs (vmi : VMI) : List String × List String × String :=
  let ga := extractGuestAgentIPs vmi
  if ga.1.length > 0 || ga.2.length > 0 then (ga.1, ga.2, guestAgentInfoSource)
  else
    let m := extractMultusIPs vmi
    if m.1.length > 0 || m.2.length > 0 then (m.1, m.2, multusInfoSource)
    else ([], [], "")

/-- Valid decimal digits folded to their value; `none` on a non-digit. -/
def decDigitsVal : List Char → Nat → Option Nat
  | [], acc => some acc
  | c :: cs, acc =>
    if c.isDigit then decDigitsVal cs (acc * 10 + (c.toNat - 48))
    else none

/-- The mathematical base-10 reading of a string: an optional single sign
followed by at least one decimal digit, with no bound on the value. -/
def decimalDenotes (s : String) : Option Int :=
  match s.toList with
  | [] => none
  | c :: rest =>
    let p := if c == '-' then (true, rest)
             else if c == '+' then (false, rest)
             else (false, c :: rest)
    match p.2 with
    | [] => none
    | _ =>
      match decDigitsVal p.2 0 with
      | none => none
      | some n => some (if p.1 then -(n : Int) else (n : Int))

/-- Go's `strconv.ParseInt(s, 10, 64)`: the base-10 reading constrained to
the signed 64-bit range.  Go rejects out-of-range values with an
incremental cutoff check while scanning digits; since digits only ever
increase the magnitude, that acceptance condition is exactly a range check
on the full value. -/
def goParseInt64 (s : String) : Option Int :=
  match decimalDenotes s with
  | none => none
  | some v => if -(2 ^ 63) ≤ v ∧ v ≤ 2 ^ 63 - 1 then some v else none

/-- `parseTTL`: empty annotation, a failed parse, or a non-positive value
fall back to the 300-second default. -/
def parseTTL (raw : String) : Int :=
  if raw == "" then defaultTTL
  else
    match goParseInt64 (goTrimSpace raw) with
    | none => defaultTTL
    | some v => if v ≤ 0 then defaultTTL else v

/-- `parseHostnames`: split the annotation on commas, trim each token,
drop empty tokens, preserve order. -/
def parseHostnames (raw : String) : List String :=
  (splitComma raw).foldl
    (fun result h =>
      let h2 := goTrimSpace h
      if h2 != "" then result ++ [h2] else result)
    []

/-- One `dnsendpointv1alpha1.Endpoint` record declaration. -/
structure Endpoint where
  dnsName : String
  recordType : String
  targets : List String
  recordTTL : Int
deriving DecidableEq

/-- Per-hostname step of `buildEndpoints`: append an A endpoint when there
are IPv4 targets, then an AAAA endpoint when there are IPv6 targets. -/
def buildStep (ipv4 ipv6 : List String) (ttl : Int) (endpoints : List Endpoint)
    (hostname : String) : List Endpoint :=
  let endpoints :=
    if ipv4.length > 0 then endpoints ++ [⟨hostname, "A", ipv4, ttl⟩] else endpoints
  if ipv6.length > 0 then endpoints ++ [⟨hostname, "AAAA", ipv6, ttl⟩] else endpoints

/-- `buildEndpoints`: per hostname, an A endpoint when there are IPv4
targets and an AAAA endpoint when there are IPv6 targets. -/
def buildEndpoints (hostnames ipv4 ipv6 : List String) (ttl : Int) : List Endpoint :=
  hostnames.foldl (buildStep ipv4 ipv6 ttl) []

/-- Spec description of the declarations for one hostname: one A
declaration iff there are IPv4 targets, then one AAAA declaration iff
there are IPv6 targets. -/
def hostDecls (ipv4 ipv6 : List String) (ttl : Int) (hostname : String) : List Endpoint :=
  (if ipv4 = [] then [] else [⟨hostname, "A", ipv4, ttl⟩])
    ++ (if ipv6 = [] then [] else [⟨hostname, "AAAA", ipv6, ttl⟩])

/-! ## Reconciliation Decision Engine

The Kubernetes API is modeled as the state of the single `DNSEndpoint`
object keyed by the VMI's namespace/name (`Option DNSEndpoint`).  A
reconciliation pass returns the list of write operations it issues, or
`none` when it aborts with an error (the only locally raised error is
`controllerutil.SetControllerReference`'s already-owned failure; transient
API failures are external and not modeled). -/

/-- The persisted `DNSEndpoint` artifact: identity, record declarations,
and the controller owner reference. -/
structure DNSEndpoint where
  ns : String
  name : String
  endpoints : List Endpoint
  ownerVMI : Option (String × String)
deriving DecidableEq

/-- A write issued against the API during one pass. -/
inductive WriteOp where
  | create (e : DNSEndpoint)
  | update (e : DNSEndpoint)
  | delete (ns name : String)
deriving DecidableEq

/-- `controllerutil.SetControllerReference`: set the controller owner if
none is set; succeed if the same owner is already set; fail when the
object is controlled by someone else. -/
def setControllerReference (vmi : VMI) (obj : DNSEndpoint) : Option DNSEndpoint :=
  match obj.ownerVMI with
  | none => some { obj with ownerVMI := some (vmi.ns, vmi.name) }
  | some o => if o = (vmi.ns, vmi.name) then some obj else none

/-- The record declarations the upsert path computes for a VMI. -/
def desiredEndpoints (vmi : VMI) : List Endpoint :=
  buildEndpoints (parseHostnames (goTrimSpace (vmi.hostnameAnn.getD "")))
    (extractBestIPs vmi).1 (extractBestIPs vmi).2.1
    (parseTTL (vmi.ttlAnn.getD ""))

/-- `Reconcile`: `vmi?` is the fetch result (`none` = NotFound), `existing`
the current `DNSEndpoint` at the VMI's key.  Returns the writes issued:
NotFound is a no-op; an absent or blank hostname annotation deletes any
existing object (`deleteEndpointIfExists`, where NotFound is success); no
resolved addresses is a no-op; otherwise `controllerutil.CreateOrUpdate`
creates the object, or updates it only when the mutated object differs. -/
def reconcile (vmi? : Option VMI) (existing : Option DNSEndpoint) :
    Option (List WriteOp) :=
  match vmi? with
  | none => some []
  | some vmi =>
    if vmi.hostnameAnn.isNone || goTrimSpace (vmi.hostnameAnn.getD "") == "" then
      match existing with
      | none => some []
      | some e => some [WriteOp.delete e.ns e.name]
    else
      if (extractBestIPs vmi).1.isEmpty && (extractBestIPs vmi).2.1.isEmpty then some []
      else
        match existing with
        | none =>
          match setControllerReference vmi
              { ns := vmi.ns, name := vmi.name
                endpoints := desiredEndpoints vmi, ownerVMI := none } with
          | none => none
          | some d => some [WriteOp.create d]
        | some e =>
          match setControllerReference vmi { e with endpoints := desiredEndpoints vmi } with
          | none => none
          | some d => if d = e then some [] else some [WriteOp.update d]

/-- Effect of a pass's writes on the stored object. -/
def applyOps (st : Option DNSEndpoint) (ops : List WriteOp) : Option DNSEndpoint :=
  ops.foldl
    (fun _ op =>
      match op with
      | WriteOp.create e => some e
      | WriteOp.update e => some e
      | WriteOp.delete _ _ => none)
    st

/-! ## Change Filter (`vmiChangedPredicate`) -/

/-- A watch-event payload: a VMI, or some other object (the type assertion
in the predicate fails on it). -/
inductive WatchObject where
  | vmiObj (v : VMI)
  | foreign
deriving DecidableEq

/-- `vmiChangedPredicate.UpdateFunc`: with two VMI payloads, pass iff the
hostname annotation value (missing key reads as `""`) or the interfaces
slice changed; malformed payloads always pass. -/
def vmiChangedUpdate (objOld objNew : WatchObject) : Bool :=
  match objOld, objNew with
  | WatchObject.vmiObj o, WatchObject.vmiObj n =>
    (o.hostnameAnn.getD "" != n.hostnameAnn.getD "") || (o.interfaces != n.interfaces)
  | _, _ => true

/-- `vmiChangedPredicate.CreateFunc`. -/
def vmiChangedCreate (_ : WatchObject) : Bool := true

/-- `vmiChangedPredicate.DeleteFunc`. -/
def vmiChangedDelete (_ : WatchObject) : Bool := true

/-- `vmiChangedPredicate.GenericFunc`. -/
def vmiChangedGeneric (_ : WatchObject) : Bool := true

/-! ## Spec-side address-extraction descriptions

The specification describes each extractor declaratively: select the
interfaces whose tag set contains the source tag and keep, in order, the
trimmed address strings that survive validation and classification.  The
following definitions transcribe those words; the claim theorems relate
them to the imperative extractors above. -/

/-- A trimmed address string the spec classifies as IPv4: non-empty,
syntactically valid, and standard parsing yields a 4-byte form. -/
def keepIPv4 (a : String) : Bool :=
  a != "" &&
    match goParseIP a with
    | some ip => (ipTo4 ip).isSome
    | none => false

/-- The `fe80::/10` test on a 16-byte address: first byte `0xfe`, top two
bits of the second byte `10`. -/
def isLinkLocalV6Bytes (ip : List Nat) : Bool :=
  ip.get? 0 == some 0xfe && (((ip.get? 1).getD 0) &&& 0xc0) == 0x80

/-- A trimmed address string the spec keeps as IPv6 for the richer source:
valid, no 4-byte form, and not in `fe80::/10`. -/
def keepGlobalIPv6 (a : String) : Bool :=
  a != "" &&
    match goParseIP a with
    | some ip => (ipTo4 ip).isNone && !(isLinkLocalV6Bytes ip)
    | none => false

/-- A trimmed address string the spec keeps as IPv6 for the fallback
source: valid and no 4-byte form — link-local is not excluded. -/
def keepAnyIPv6 (a : String) : Bool :=
  a != "" &&
    match goParseIP a with
    | some ip => (ipTo4 ip).isNone
    | none => false

/-- Interfaces whose comma-split, trimmed tag set contains `tag`. -/
def taggedIfaces (ifaces : List IfaceStatus) (tag : String) : List IfaceStatus :=
  ifaces.filter (fun i => containsInfoSource i.infoSource tag)

/-- Spec description of the richer source's IPv4 output: per guest-agent
interface in order, the trimmed entries of its full address list that
classify as IPv4. -/
def guestAgentSpecV4 (ifaces : List IfaceStatus) : List String :=
  (taggedIfaces ifaces guestAgentInfoSource).flatMap
    (fun i => (i.ips.map goTrimSpace).filter keepIPv4)

/-- Spec description of the richer source's IPv6 output: as
`guestAgentSpecV4`, with `fe80::/10` excluded. -/
def guestAgentSpecV6 (ifaces : List IfaceStatus) : List String :=
  (taggedIfaces ifaces guestAgentInfoSource).flatMap
    (fun i => (i.ips.map goTrimSpace).filter keepGlobalIPv6)

/-- Spec description of the fallback source's IPv4 output: only the single
trimmed primary field of each multus-status interface. -/
def multusSpecV4 (ifaces : List IfaceStatus) : List String :=
  (taggedIfaces ifaces multusInfoSource).flatMap
    (fun i => [goTrimSpace i.ip].filter keepIPv4)

/-- Spec description of the fallback source's IPv6 output: link-local IPv6
is never excluded. -/
def multusSpecV6 (ifaces : List IfaceStatus) : List String :=
  (taggedIfaces ifaces multusInfoSource).flatMap
    (fun i => [goTrimSpace i.ip].filter keepAnyIPv6)

/-! ## Helper lemmas -/

/-- Whatever `parseIPv4Go` accepts is a 4-byte field list: the only
success exit requires exactly three completed fields plus the current
one. -/
theorem parseIPv4Go_length :
    ∀ (cs : List Char) (val digLen : Nat) (fields l : List Nat),
      parseIPv4Go cs val digLen fields = some l → l.length = 4 := by
  intro cs
  induction cs with
  | nil =>
    intro val digLen fields l h
    simp only [parseIPv4Go] at h
    split_ifs at h with h1 h2
    all_goals cases h
    have h3 : fields.length = 3 := by simpa using h2
    simp [h3]
  | cons c cs ih =>
    intro val digLen fields l h
    simp only [parseIPv4Go] at h
    split_ifs at h with h1 h2 h3 h4 h5 h6 <;>
      first
        | exact ih _ _ _ _ h
        | cases h

/-- `v6finish` only succeeds with a 16-byte address, given the loop
invariants (at most 16 bytes collected, ellipsis within bounds). -/
theorem v6finish_length (s : List Char) (bytes : List Nat) (ell : Option Nat) (l : List Nat)
    (hb : bytes.length ≤ 16)
    (he : ∀ e, ell = some e → e ≤ bytes.length)
    (h : v6finish s bytes ell = some l) : l.length = 16 := by
  cases ell with
  | none =>
    simp only [v6finish] at h
    split_ifs at h with h1 h2
    all_goals cases h
    omega
  | some e =>
    have he' := he e rfl
    simp only [v6finish] at h
    split_ifs at h with h1 h2
    all_goals cases h
    simp only [List.length_append, List.length_take, List.length_replicate,
      List.length_drop]
    omega

/-- The `v6loop` invariant: starting from at most 16 collected bytes, an
even count, and an in-bounds ellipsis, success means a 16-byte address. -/
theorem v6loop_length :
    ∀ (fuel : Nat) (s : List Char) (bytes : List Nat) (ell : Option Nat) (l : List Nat),
      bytes.length ≤ 16 → 2 ∣ bytes.length →
      (∀ e, ell = some e → e ≤ bytes.length) →
      v6loop fuel s bytes ell = some l → l.length = 16 := by
  intro fuel
  induction fuel with
  | zero => intro s bytes ell l _ _ _ h; cases h
  | succ fuel ih =>
    intro s bytes ell l hb hd he h
    unfold v6loop at h
    by_cases h16 : 16 ≤ bytes.length
    · rw [if_pos h16] at h
      exact v6finish_length _ _ _ _ hb he h
    · rw [if_neg h16] at h
      cases htk : takeHex s 0 0 with
      | none => rw [htk] at h; cases h
      | some t =>
        obtain ⟨acc, cnt, rest⟩ := t
        rw [htk] at h
        dsimp only at h
        by_cases hcnt : (cnt == 0) = true
        · rw [if_pos hcnt] at h; cases h
        · rw [if_neg hcnt] at h
          split at h
          · -- rest starts with a dot: embedded IPv4 tail
            by_cases hd1 : (ell.isNone && bytes.length != 12) = true
            · rw [if_pos hd1] at h; cases h
            · rw [if_neg hd1] at h
              by_cases hd2 : 16 < bytes.length + 4
              · rw [if_pos hd2] at h; cases h
              · rw [if_neg hd2] at h
                cases hv4 : parseIPv4Go s 0 0 [] with
                | none => rw [hv4] at h; cases h
                | some f4 =>
                  rw [hv4] at h
                  refine v6finish_length _ _ _ _ ?_ ?_ h
                  · have h4 := parseIPv4Go_length _ _ _ _ _ hv4
                    simp only [List.length_append, h4]
                    omega
                  · intro e hee
                    have := he e hee
                    simp only [List.length_append]
                    omega
          · -- rest empty: end of input after a group
            refine v6finish_length _ _ _ _ ?_ ?_ h
            · simp only [List.length_append, List.length_cons, List.length_nil]
              omega
            · intro e hee
              have := he e hee
              simp only [List.length_append]
              omega
          · -- rest is a lone colon
            cases h
          · -- rest starts with a double colon
            by_cases hes : ell.isSome = true
            · rw [if_pos hes] at h; cases h
            · rw [if_neg hes] at h
              have helln : ell = none := by
                cases ell with
                | none => rfl
                | some e => simp at hes
              subst helln
              split at h
              · refine v6finish_length _ _ _ _ ?_ ?_ h
                · simp only [List.length_append, List.length_cons, List.length_nil]
                  omega
                · intro e hee
                  injection hee with hee
                  subst hee
                  simp only [List.length_append, List.length_cons, List.length_nil]
                  omega
              · refine ih _ _ _ _ ?_ ?_ ?_ h
                · simp only [List.length_append, List.length_cons, List.length_nil]
                  omega
                · simp only [List.length_append, List.length_cons, List.length_nil]
                  omega
                · intro e hee
                  injection hee with hee
                  subst hee
                  simp only [List.length_append, List.length_cons, List.length_nil]
                  omega
          · -- rest is a single colon followed by another group
            refine ih _ _ _ _ ?_ ?_ ?_ h
            · simp only [List.length_append, List.length_cons, List.length_nil]
              omega
            · simp only [List.length_append, List.length_cons, List.length_nil]
              omega
            · intro e hee
              have := he e hee
              simp only [List.length_append]
              omega
          · -- any other character after a group is an error
            cases h

/-- `parseIPv6Go` only returns 16-byte addresses. -/
theorem parseIPv6Go_length (cs : List Char) (l : List Nat)
    (h : parseIPv6Go cs = some l) : l.length = 16 := by
  unfold parseIPv6Go at h
  by_cases h1 : cs.contains '%' = true
  · rw [if_pos h1] at h; cases h
  · rw [if_neg h1] at h
    split at h
    · split at h
      · injection h with h
        subst h
        simp
      · refine v6loop_length _ _ _ _ _ ?_ ?_ ?_ h
        · simp
        · simp
        · intro e hee
          injection hee with hee
          subst hee
          simp
    · refine v6loop_length _ _ _ _ _ ?_ ?_ ?_ h
      · simp
      · simp
      · intro e hee
        cases hee

/-- `goParseIP` only returns 16-byte addresses (the `As16` form). -/
theorem goParseIP_length (s : String) (ip : List Nat)
    (h : goParseIP s = some ip) : ip.length = 16 := by
  unfold goParseIP at h
  split at h
  · rename_i c hc
    by_cases hdot : (c == '.') = true
    · rw [if_pos hdot] at h
      cases hv4 : parseIPv4Go s.toList 0 0 [] with
      | none => rw [hv4] at h; cases h
      | some f4 =>
        rw [hv4] at h
        simp only [Option.map_some'] at h
        have h4 := parseIPv4Go_length _ _ _ _ _ hv4
        injection h with h
        subst h
        simp [v4InV6, h4]
    · rw [if_neg hdot] at h
      by_cases hcol : (c == ':') = true
      · rw [if_pos hcol] at h
        exact parseIPv6Go_length _ _ h
      · rw [if_neg hcol] at h
        cases h
  · cases h


/-- A parsed address always has a 16-byte form. -/
theorem goParseIP_to16 (s : String) (ip : List Nat) (h : goParseIP s = some ip) :
    ipTo16 ip = some ip := by
  have hl := goParseIP_length s ip h
  simp [ipTo16, hl]

/-- On a parsed address with no 4-byte form, Go's link-local test is
exactly the `fe80::/10` byte test. -/
theorem goParseIP_linkLocal (s : String) (ip : List Nat) (h : goParseIP s = some ip)
    (h4 : ipTo4 ip = none) :
    ipIsLinkLocalUnicast ip = isLinkLocalV6Bytes ip := by
  have hl := goParseIP_length s ip h
  unfold ipIsLinkLocalUnicast
  rw [h4]
  simp [isLinkLocalV6Bytes, hl]

/-- The empty string is not a valid IP literal. -/
theorem goParseIP_empty : goParseIP "" = none := rfl

/-- Folding `gaAddrStep` appends exactly the spec-side filtered trimmed
addresses to each accumulator component. -/
theorem gaAddr_foldl (addrs : List String) :
    ∀ acc : List String × List String,
      addrs.foldl gaAddrStep acc
        = (acc.1 ++ (addrs.map goTrimSpace).filter keepIPv4,
           acc.2 ++ (addrs.map goTrimSpace).filter keepGlobalIPv6) := by
  induction addrs with
  | nil => intro acc; simp
  | cons a as ih =>
    intro acc
    rw [List.foldl_cons, ih]
    by_cases hemp : goTrimSpace a = ""
    · simp [gaAddrStep, keepIPv4, keepGlobalIPv6, hemp]
    · cases hp : goParseIP (goTrimSpace a) with
      | none => simp [gaAddrStep, keepIPv4, keepGlobalIPv6, hemp, hp]
      | some ip =>
        cases h4 : ipTo4 ip with
        | some ip4 =>
          simp [gaAddrStep, keepIPv4, keepGlobalIPv6, hemp, hp, h4]
        | none =>
          have h16 := goParseIP_to16 _ _ hp
          have hll := goParseIP_linkLocal _ _ hp h4
          by_cases hLL : isLinkLocalV6Bytes ip = true
          · simp [gaAddrStep, keepIPv4, keepGlobalIPv6, hemp, hp, h4, h16, hll, hLL]
          · simp [gaAddrStep, keepIPv4, keepGlobalIPv6, hemp, hp, h4, h16, hll, hLL]

/-- Folding `gaIfaceStep` appends exactly the spec-side guest-agent
extraction. -/
theorem gaIface_foldl (ifaces : List IfaceStatus) :
    ∀ acc : List String × List String,
      ifaces.foldl gaIfaceStep acc
        = (acc.1 ++ guestAgentSpecV4 ifaces, acc.2 ++ guestAgentSpecV6 ifaces) := by
  induction ifaces with
  | nil => intro acc; simp [guestAgentSpecV4, guestAgentSpecV6, taggedIfaces]
  | cons i is ih =>
    intro acc
    rw [List.foldl_cons, ih]
    by_cases hc : containsInfoSource i.infoSource guestAgentInfoSource = true
    · simp [gaIfaceStep, hc, guestAgentSpecV4, guestAgentSpecV6, taggedIfaces,
        List.filter_cons, gaAddr_foldl]
    · simp [gaIfaceStep, hc, guestAgentSpecV4, guestAgentSpecV6, taggedIfaces,
        List.filter_cons]

/-- Folding `multusIfaceStep` appends exactly the spec-side fallback
extraction. -/
theorem multusIface_foldl (ifaces : List IfaceStatus) :
    ∀ acc : List String × List String,
      ifaces.foldl multusIfaceStep acc
        = (acc.1 ++ multusSpecV4 ifaces, acc.2 ++ multusSpecV6 ifaces) := by
  induction ifaces with
  | nil => intro acc; simp [multusSpecV4, multusSpecV6, taggedIfaces]
  | cons i is ih =>
    intro acc
    rw [List.foldl_cons, ih]
    by_cases hc : containsInfoSource i.infoSource multusInfoSource = true
    · by_cases hemp : goTrimSpace i.ip = ""
      · simp [multusIfaceStep, hc, hemp, multusSpecV4, multusSpecV6, taggedIfaces,
          List.filter_cons, keepIPv4, keepAnyIPv6]
      · cases hp : goParseIP (goTrimSpace i.ip) with
        | none =>
          simp [multusIfaceStep, hc, hemp, hp, multusSpecV4, multusSpecV6, taggedIfaces,
            List.filter_cons, keepIPv4, keepAnyIPv6]
        | some ip =>
          cases h4 : ipTo4 ip with
          | some ip4 =>
            simp [multusIfaceStep, hc, hemp, hp, h4, multusSpecV4, multusSpecV6,
              taggedIfaces, List.filter_cons, keepIPv4, keepAnyIPv6]
          | none =>
            have h16 := goParseIP_to16 _ _ hp
            simp [multusIfaceStep, hc, hemp, hp, h4, h16, multusSpecV4, multusSpecV6,
              taggedIfaces, List.filter_cons, keepIPv4, keepAnyIPv6]
    · simp [multusIfaceStep, hc, multusSpecV4, multusSpecV6, taggedIfaces,
        List.filter_cons]

/-- Folding `buildStep` appends exactly the spec-side per-hostname
declarations. -/
theorem buildStep_foldl (ipv4 ipv6 : List String) (ttl : Int) (hostnames : List String) :
    ∀ acc : List Endpoint,
      hostnames.foldl (buildStep ipv4 ipv6 ttl) acc
        = acc ++ hostnames.flatMap (hostDecls ipv4 ipv6 ttl) := by
  induction hostnames with
  | nil => intro acc; simp
  | cons hn hs ih =>
    intro acc
    rw [List.foldl_cons, ih]
    cases ipv4 with
    | nil => cases ipv6 <;> simp [buildStep, hostDecls]
    | cons a as => cases ipv6 <;> simp [buildStep, hostDecls]

/-! ## Claim theorems -/

/-- Claim C1: source selection is winner-take-all with the guest-agent
source first: if the guest-agent extractor yields any address, `extractBestIPs`
returns exactly those addresses with the guest-agent tag; otherwise, if the
multus-status extractor yields any address, those are returned with the
multus-status tag; otherwise empty sets and an empty tag. -/
theorem extractBestIPs_priority (vmi : VMI) :
    (extractGuestAgentIPs vmi ≠ ([], []) →
      extractBestIPs vmi
        = ((extractGuestAgentIPs vmi).1, (extractGuestAgentIPs vmi).2, guestAgentInfoSource))
    ∧ (extractGuestAgentIPs vmi = ([], []) → extractMultusIPs vmi ≠ ([], []) →
      extractBestIPs vmi
        = ((extractMultusIPs vmi).1, (extractMultusIPs vmi).2, multusInfoSource))
    ∧ (extractGuestAgentIPs vmi = ([], []) → extractMultusIPs vmi = ([], []) →
      extractBestIPs vmi = ([], [], "")) := by
  refine ⟨?_, ?_, ?_⟩
  · intro hga
    rcases hg : extractGuestAgentIPs vmi with ⟨g4, g6⟩
    rw [hg] at hga
    cases g4 with
    | cons a as => simp [extractBestIPs, hg]
    | nil =>
      cases g6 with
      | cons b bs => simp [extractBestIPs, hg]
      | nil => simp at hga
  · intro hga hm
    rcases hmm : extractMultusIPs vmi with ⟨m4, m6⟩
    rw [hmm] at hm
    cases m4 with
    | cons a as => simp [extractBestIPs, hga, hmm]
    | nil =>
      cases m6 with
      | cons b bs => simp [extractBestIPs, hga, hmm]
      | nil => simp at hm
  · intro hga hm
    simp [extractBestIPs, hga, hm]

/-- Witness for C1 at a concrete snapshot with one guest-agent interface. -/
theorem extractBestIPs_priority_witness :
    extractBestIPs ⟨"default", "vm", some "h", none,
        [⟨"guest-agent", "", ["192.168.1.1"]⟩]⟩
      = (["192.168.1.1"], [], "guest-agent") := by
  have h := (extractBestIPs_priority ⟨"default", "vm", some "h", none,
    [⟨"guest-agent", "", ["192.168.1.1"]⟩]⟩).1 (by decide)
  exact h.trans (by decide)

/-- Claim C4: the guest-agent extractor returns, in interface order,
exactly the trimmed entries of the `IPs` lists of interfaces tagged
`guest-agent`, dropping empties and invalid literals, classified IPv4
against IPv6 by standard parsing, with `fe80::/10` IPv6 excluded. -/
theorem extractGuestAgentIPs_spec (vmi : VMI) :
    extractGuestAgentIPs vmi
      = (guestAgentSpecV4 vmi.interfaces, guestAgentSpecV6 vmi.interfaces) := by
  unfold extractGuestAgentIPs
  rw [gaIface_foldl]
  simp

/-- Claim C5: the multus-status extractor reads only the trimmed primary
field of interfaces tagged `multus-status`, with the same
trim/validate/classify rules, and never excludes link-local IPv6: every
valid primary address parsed as IPv6 — link-local included — is in the
result. -/
theorem extractMultusIPs_spec (vmi : VMI) :
    extractMultusIPs vmi = (multusSpecV4 vmi.interfaces, multusSpecV6 vmi.interfaces)
    ∧ (∀ i ∈ vmi.interfaces,
        containsInfoSource i.infoSource multusInfoSource = true →
        ∀ ip, goParseIP (goTrimSpace i.ip) = some ip → ipTo4 ip = none →
          goTrimSpace i.ip ∈ (extractMultusIPs vmi).2) := by
  have hmain : extractMultusIPs vmi
      = (multusSpecV4 vmi.interfaces, multusSpecV6 vmi.interfaces) := by
    unfold extractMultusIPs
    rw [multusIface_foldl]
    simp
  refine ⟨hmain, ?_⟩
  intro i hi hc ip hp h4
  rw [hmain]
  have hne : goTrimSpace i.ip ≠ "" := by
    intro hcontra
    rw [hcontra, goParseIP_empty] at hp
    cases hp
  simp only [multusSpecV6, taggedIfaces, List.mem_flatMap, List.mem_filter]
  refine ⟨i, ?_, ?_⟩
  · simp [hi, hc]
  · simp [keepAnyIPv6, hne, hp, h4]

/-- Witness for C5: a link-local IPv6 primary address is kept. -/
theorem extractMultusIPs_spec_witness :
    "fe80::1" ∈ (extractMultusIPs ⟨"d", "v", none, none,
      [⟨"multus-status", "fe80::1", []⟩]⟩).2 := by
  have h := (extractMultusIPs_spec ⟨"d", "v", none, none,
      [⟨"multus-status", "fe80::1", []⟩]⟩).2
    ⟨"multus-status", "fe80::1", []⟩ (by decide) (by decide)
    [0xfe, 0x80, 0, 0, 0, 0, 0, 0, 0, 0, 0, 0, 0, 0, 0, 1]
    (by decide) (by decide)
  exact (by decide : goTrimSpace "fe80::1" = "fe80::1") ▸ h

/-- Claim C7: `buildEndpoints` emits, hostname-major with A before AAAA,
one A declaration iff the IPv4 list is non-empty and one AAAA declaration
iff the IPv6 list is non-empty; no declaration carries an empty target
list, and with both address lists empty nothing is emitted. -/
theorem buildEndpoints_spec (hostnames ipv4 ipv6 : List String) (ttl : Int) :
    buildEndpoints hostnames ipv4 ipv6 ttl
      = hostnames.flatMap (hostDecls ipv4 ipv6 ttl)
    ∧ (∀ e ∈ buildEndpoints hostnames ipv4 ipv6 ttl, e.targets ≠ [])
    ∧ (ipv4 = [] → ipv6 = [] → buildEndpoints hostnames ipv4 ipv6 ttl = []) := by
  have hmain : buildEndpoints hostnames ipv4 ipv6 ttl
      = hostnames.flatMap (hostDecls ipv4 ipv6 ttl) := by
    unfold buildEndpoints
    rw [buildStep_foldl]
    simp
  refine ⟨hmain, ?_, ?_⟩
  · intro e he
    rw [hmain] at he
    rw [List.mem_flatMap] at he
    obtain ⟨hn, _, he⟩ := he
    unfold hostDecls at he
    rw [List.mem_append] at he
    rcases he with he | he <;>
      [skip; skip] <;>
      · split at he
        · cases he
        · rw [List.mem_singleton] at he
          subst he
          simpa using by assumption
  · intro h4 h6
    rw [hmain, h4, h6]
    simp [hostDecls]

/-- Witness for C7: both address families empty yields no declarations. -/
theorem buildEndpoints_spec_witness :
    buildEndpoints ["a.example.com"] [] [] 300 = [] :=
  (buildEndpoints_spec ["a.example.com"] [] [] 300).2.2 rfl rfl

/-- Claim C9: the change filter passes every creation, deletion and
generic notification; an update with two VMI payloads passes iff the
hostname annotation value or the interface list changed; malformed update
payloads always pass. -/
theorem vmiChangedPredicate_spec :
    (∀ o : WatchObject,
      vmiChangedCreate o = true ∧ vmiChangedDelete o = true ∧ vmiChangedGeneric o = true)
    ∧ (∀ o n : VMI,
        vmiChangedUpdate (WatchObject.vmiObj o) (WatchObject.vmiObj n) = true
          ↔ (o.hostnameAnn.getD "" ≠ n.hostnameAnn.getD "" ∨ o.interfaces ≠ n.interfaces))
    ∧ (∀ x : WatchObject,
        vmiChangedUpdate WatchObject.foreign x = true
          ∧ vmiChangedUpdate x WatchObject.foreign = true) := by
  refine ⟨fun o => ⟨rfl, rfl, rfl⟩, fun o n => ?_, fun x => ⟨rfl, ?_⟩⟩
  · simp [vmiChangedUpdate]
  · cases x <;> rfl

/-- Claim C6 counterexample: `"9223372036854775808"` (2^63) denotes a
positive base-10 integer, yet `parseTTL` does not return it unchanged — Go
parses the annotation with `strconv.ParseInt(_, 10, 64)`, whose signed
64-bit range check fails, so the default 300 is substituted. -/
theorem parseTTL_counterexample :
    decimalDenotes "9223372036854775808" = some 9223372036854775808
    ∧ (0 : Int) < 9223372036854775808
    ∧ parseTTL "9223372036854775808" = 300
    ∧ parseTTL "9223372036854775808" ≠ 9223372036854775808 :=
  ⟨by decide, by decide, by decide, by decide⟩

/-- Claim C6 (amended): `parseTTL` is total and bounded below — it always
returns a positive value; the empty string gives the default 300; a failed
64-bit parse or a non-positive parsed value gives 300; and every string
denoting a positive base-10 integer within the signed 64-bit range passes
through unchanged. -/
theorem parseTTL_spec :
    parseTTL "" = 300
    ∧ (∀ s : String, 0 < parseTTL s)
    ∧ (∀ s : String, goParseInt64 (goTrimSpace s) = none → parseTTL s = 300)
    ∧ (∀ s : String, ∀ v : Int,
        goParseInt64 (goTrimSpace s) = some v → v ≤ 0 → parseTTL s = 300)
    ∧ (∀ s : String, ∀ v : Int,
        decimalDenotes (goTrimSpace s) = some v → 0 < v → v ≤ 2 ^ 63 - 1 →
          parseTTL s = v) := by
  refine ⟨rfl, ?_, ?_, ?_, ?_⟩
  · intro s
    unfold parseTTL
    by_cases hs : (s == "") = true
    · rw [if_pos hs]
      decide
    · rw [if_neg hs]
      cases hg : goParseInt64 (goTrimSpace s) with
      | none => decide
      | some v =>
        dsimp only
        by_cases hv : v ≤ 0
        · rw [if_pos hv]
          decide
        · rw [if_neg hv]
          omega
  · intro s hg
    unfold parseTTL
    by_cases hs : (s == "") = true
    · rw [if_pos hs]
      rfl
    · rw [if_neg hs, hg]
      rfl
  · intro s v hg hv
    unfold parseTTL
    by_cases hs : (s == "") = true
    · rw [if_pos hs]
      rfl
    · rw [if_neg hs, hg]
      dsimp only
      rw [if_pos hv]
      rfl
  · intro s v hd hv hb
    have h63 : (2 : Int) ^ 63 = 9223372036854775808 := by norm_num
    have hg : goParseInt64 (goTrimSpace s) = some v := by
      unfold goParseInt64
      rw [hd]
      dsimp only
      rw [if_pos ⟨by omega, hb⟩]
    by_cases hs : (s == "") = true
    · exfalso
      have hseq : s = "" := by simpa using hs
      subst hseq
      have hnone : decimalDenotes (goTrimSpace "") = none := by decide
      rw [hnone] at hd
      cases hd
    · unfold parseTTL
      rw [if_neg hs, hg]
      dsimp only
      rw [if_neg (by omega : ¬v ≤ 0)]

/-- Witness for the amended C6: a representable positive TTL annotation
passes through unchanged. -/
theorem parseTTL_spec_witness : parseTTL "42" = 42 :=
  parseTTL_spec.2.2.2.2 "42" 42 (by decide) (by decide) (by decide)

/-- Claim C10: both extractors classify by the 4-byte (`To4`) form, so the
IPv4-mapped literal `::ffff:192.0.2.1` parses, has a 4-byte form, lands in
the IPv4 list of either extractor in its original text, and becomes an
A-record target; it bypasses the IPv6 link-local check — even
`::ffff:169.254.7.7`, which Go's `IsLinkLocalUnicast` classifies as
link-local, is kept because the IPv4 branch is taken first. -/
theorem mappedIPv4_is_A_target :
    (goParseIP "::ffff:192.0.2.1").isSome = true
    ∧ ((goParseIP "::ffff:192.0.2.1").map (fun ip => (ipTo4 ip).isSome)) = some true
    ∧ extractGuestAgentIPs ⟨"default", "vm", some "h", none,
        [⟨"guest-agent", "", ["::ffff:192.0.2.1"]⟩]⟩ = (["::ffff:192.0.2.1"], [])
    ∧ extractMultusIPs ⟨"default", "vm", some "h", none,
        [⟨"multus-status", "::ffff:192.0.2.1", []⟩]⟩ = (["::ffff:192.0.2.1"], [])
    ∧ ((goParseIP "::ffff:169.254.7.7").map ipIsLinkLocalUnicast) = some true
    ∧ extractGuestAgentIPs ⟨"default", "vm", some "h", none,
        [⟨"guest-agent", "", ["::ffff:169.254.7.7"]⟩]⟩ = (["::ffff:169.254.7.7"], [])
    ∧ buildEndpoints ["h"] ["::ffff:192.0.2.1"] [] 300
        = [⟨"h", "A", ["::ffff:192.0.2.1"], 300⟩] :=
  ⟨by decide, by decide, by decide, by decide, by decide, by decide, by decide⟩

/-- Claim C2: with the hostname annotation present and non-blank but
neither source yielding any address, a pass performs no write at all, so
any previously published object is untouched. -/
theorem reconcile_noAddresses_noop (vmi : VMI) (st : Option DNSEndpoint) (hn : String)
    (hp : vmi.hostnameAnn = some hn) (hb : goTrimSpace hn ≠ "")
    (hga : extractGuestAgentIPs vmi = ([], []))
    (hm : extractMultusIPs vmi = ([], [])) :
    reconcile (some vmi) st = some [] := by
  have hbest : extractBestIPs vmi = ([], [], "") := by
    simp [extractBestIPs, hga, hm]
  simp [reconcile, hp, hb, hbest]

/-- Witness for C2: a VMI with a hostname annotation and no interfaces
leaves an existing object untouched. -/
theorem reconcile_noAddresses_noop_witness :
    reconcile (some ⟨"default", "vm", some "vm.example.com", none, []⟩)
      (some ⟨"default", "vm", [⟨"vm.example.com", "A", ["1.2.3.4"], 300⟩],
        some ("default", "vm")⟩)
      = some [] :=
  reconcile_noAddresses_noop _ _ "vm.example.com" rfl (by decide) rfl rfl

/-- A pass over an object that already carries the desired declarations
and owner link issues no write. -/
theorem reconcile_matching (vmi : VMI) (d : DNSEndpoint)
    (hc : ¬(vmi.hostnameAnn.isNone || goTrimSpace (vmi.hostnameAnn.getD "") == "") = true)
    (hip : ¬((extractBestIPs vmi).1.isEmpty && (extractBestIPs vmi).2.1.isEmpty) = true)
    (hd : d.endpoints = desiredEndpoints vmi)
    (ho : d.ownerVMI = some (vmi.ns, vmi.name)) :
    reconcile (some vmi) (some d) = some [] := by
  have heta : ({ d with endpoints := desiredEndpoints vmi } : DNSEndpoint) = d := by
    cases d
    simp_all
  unfold reconcile
  dsimp only
  rw [if_neg hc, if_neg hip, heta]
  unfold setControllerReference
  rw [ho]
  simp

/-- Claim C3: the decision engine is idempotent — whatever writes one pass
issues, re-running the pass on the resulting state with the same VM
snapshot issues no write. -/
theorem reconcile_idempotent (vmi : VMI) (st : Option DNSEndpoint) (ops : List WriteOp)
    (h : reconcile (some vmi) st = some ops) :
    reconcile (some vmi) (applyOps st ops) = some [] := by
  by_cases hc : (vmi.hostnameAnn.isNone || goTrimSpace (vmi.hostnameAnn.getD "") == "") = true
  · unfold reconcile at h
    dsimp only at h
    rw [if_pos hc] at h
    cases st with
    | none =>
      injection h with h
      subst h
      simp [reconcile, hc, applyOps]
    | some e =>
      injection h with h
      subst h
      simp [reconcile, hc, applyOps]
  · unfold reconcile at h
    dsimp only at h
    rw [if_neg hc] at h
    by_cases hip : ((extractBestIPs vmi).1.isEmpty && (extractBestIPs vmi).2.1.isEmpty) = true
    · rw [if_pos hip] at h
      injection h with h
      subst h
      simp only [applyOps, List.foldl_nil]
      unfold reconcile
      dsimp only
      rw [if_neg hc, if_pos hip]
    · rw [if_neg hip] at h
      cases st with
      | none =>
        dsimp only at h
        unfold setControllerReference at h
        dsimp only at h
        injection h with h
        subst h
        simp only [applyOps, List.foldl_cons, List.foldl_nil]
        exact reconcile_matching vmi _ hc hip rfl rfl
      | some e =>
        dsimp only at h
        unfold setControllerReference at h
        dsimp only at h
        cases hoe : e.ownerVMI with
        | none =>
          rw [hoe] at h
          dsimp only at h
          by_cases heq : DNSEndpoint.mk e.ns e.name (desiredEndpoints vmi)
              (some (vmi.ns, vmi.name)) = e
          · exfalso
            have hcontra := congrArg DNSEndpoint.ownerVMI heq
            rw [hoe] at hcontra
            cases hcontra
          · rw [if_neg heq] at h
            injection h with h
            subst h
            simp only [applyOps, List.foldl_cons, List.foldl_nil]
            exact reconcile_matching vmi _ hc hip rfl rfl
        | some o =>
          rw [hoe] at h
          dsimp only at h
          by_cases hop : o = (vmi.ns, vmi.name)
          · rw [if_pos hop] at h
            dsimp only at h
            by_cases heq : DNSEndpoint.mk e.ns e.name (desiredEndpoints vmi) (some o) = e
            · rw [if_pos heq] at h
              injection h with h
              subst h
              simp only [applyOps, List.foldl_nil]
              refine reconcile_matching vmi e hc hip ?_ ?_
              · have hde := congrArg DNSEndpoint.endpoints heq
                simpa using hde.symm
              · rw [hoe, hop]
            · rw [if_neg heq] at h
              injection h with h
              subst h
              simp only [applyOps, List.foldl_cons, List.foldl_nil]
              refine reconcile_matching vmi _ hc hip rfl ?_
              · simp [hop]
          · rw [if_neg hop] at h
            dsimp only at h
            cases h

/-- Witness for C3: after the creating pass, a second pass on the created
object issues no write. -/
theorem reconcile_idempotent_witness :
    reconcile (some ⟨"default", "vm", some "vm.example.com", none,
        [⟨"guest-agent", "", ["192.168.1.1"]⟩]⟩)
      (applyOps none
        [WriteOp.create ⟨"default", "vm",
          [⟨"vm.example.com", "A", ["192.168.1.1"], 300⟩], some ("default", "vm")⟩])
      = some [] :=
  reconcile_idempotent
    ⟨"default", "vm", some "vm.example.com", none, [⟨"guest-agent", "", ["192.168.1.1"]⟩]⟩
    none _ (by decide)

/-- Claim C8: with the hostname annotation absent or blank after trimming,
the pass deletes the existing object at the VMI's key, and succeeds with
no write when no object exists (NotFound on the delete-path lookup is
success). -/
theorem reconcile_blankHostname_deletes (vmi : VMI) (st : Option DNSEndpoint)
    (h : vmi.hostnameAnn = none ∨ goTrimSpace (vmi.hostnameAnn.getD "") = "") :
    reconcile (some vmi) st
      = some (match st with
          | some e => [WriteOp.delete e.ns e.name]
          | none => []) := by
  have hc : (vmi.hostnameAnn.isNone || goTrimSpace (vmi.hostnameAnn.getD "") == "") = true := by
    rcases h with h | h <;> simp [h]
  cases st <;> simp [reconcile, hc]

/-- Witness for C8: no hostname annotation and no existing object — the
pass succeeds without any write. -/
theorem reconcile_blankHostname_witness :
    reconcile (some ⟨"default", "vm", none, none, []⟩) none = some [] :=
  reconcile_blankHostname_deletes ⟨"default", "vm", none, none, []⟩ none (Or.inl rfl)
